import Mathlib

set_option maxRecDepth 8000

/-!
A shallow embedding of `src/Tween.js` (PLAYGROUND.Tween and
PLAYGROUND.TweenManager) and proofs about it.

Modelling conventions:
* JS numbers are modelled as `ℚ`.  Every value appearing in the claims is a
  small decimal, exactly representable both as a binary double and as a
  rational, and the operations used on them (addition, subtraction,
  multiplication, division by a nonzero constant, comparison, `Math.min`,
  truncation) are exact on such inputs, so `ℚ` is a faithful model on every
  trace considered here.  `NaN` is modelled by the separate value
  `JSVal.nan`; garbage paths that can only produce `NaN` are mapped to it.
* A JS object field holding `undefined` is `JSVal.undef`.
* The tween's `delta` field is left `undefined` by the constructor and first
  written by `step` (`this.delta += delta`, giving `NaN`); `next()` then sets
  it to `0` before any code reads it (the dispatch in `step` runs `next()`
  first whenever no action is current, and `doAnimate`/`doWait` are only
  reachable after a successful `next()`).  We therefore initialise `delta`
  (and `duration`, `progress`) to `0`; this is observationally equivalent on
  all reachable reads.
* The external collaborators that are not part of the repository (the easing
  library, `cq.color`, `PLAYGROUND.Utils.circWrap` /
  `circWrappedDistance`) are modelled from the spec, as marked on their
  doc comments.
* The event mixin (`PLAYGROUND.Events`) is modelled as an append-only log of
  emitted event names stored on the tween; no handlers are registered, which
  matches a freshly constructed tween.
-/

/-- A JS dynamic value as stored in a tween context or an action's property
map: a number, a string, `NaN`, or `undefined`. -/
inductive JSVal where
  | num : ℚ → JSVal
  | str : String → JSVal
  | nan : JSVal
  | undef : JSVal
deriving DecidableEq, Repr

/-- A context object: named mutable fields.  Keys that were never assigned
read as `undefined`, as in JS. -/
abbrev Ctx := String → JSVal

/-- Field update on a context object (`context[key] = v`). -/
def ctxSet (c : Ctx) (k : String) (v : JSVal) : Ctx :=
  fun k' => if k' = k then v else c k'

/-- Slot 0 of an action entry: either a properties object (an ordered list of
key/target pairs, mirroring `Object.keys` insertion order) or one of the
string tags `"wait"` / `"repeat"`. -/
inductive TweenActionProps where
  | obj : List (String × JSVal) → TweenActionProps
  | tag : String → TweenActionProps
deriving DecidableEq, Repr

/-- One entry of the `actions` array: `[properties, duration, easing]`.
`wait`/`repeat` pushes have no third slot in the source (it is `undefined`
and never read on the paths the dispatcher takes); we store `""` there. -/
structure TweenAction where
  props : TweenActionProps
  duration : ℚ
  easing : String
deriving DecidableEq, Repr

/-- The value of the `currentAction` field: `undefined` until `next()` first
selects an action, then the string `"animate"` or `"wait"`. -/
inductive TweenCurrentAction where
  | undef
  | animate
  | wait
deriving DecidableEq, Repr

/-- An entry of the `before` array built by `next()`: the raw context value
(number and angle branches) or the 3-channel array built by `cq.color`
(color branch). -/
inductive BVal where
  | v : JSVal → BVal
  | rgb : ℚ → ℚ → ℚ → BVal
deriving DecidableEq, Repr

/-- An entry of the `change` array built by `next()`: a number, `NaN`, or the
3-channel difference array of the color branch. -/
inductive CVal where
  | num : ℚ → CVal
  | nan : CVal
  | rgb : ℚ → ℚ → ℚ → CVal
deriving DecidableEq, Repr

/-- Does a list of characters start with the given pattern? -/
def listStartsWith : List Char → List Char → Bool
  | _, [] => true
  | [], _ :: _ => false
  | a :: as, b :: bs => a = b && listStartsWith as bs

/-- Helper for `jsIndexOf`: first position at or after `i` where the pattern
occurs, `-1` if none. -/
def jsIndexOfAux (pat : List Char) : List Char → ℕ → Int
  | [], i => if listStartsWith [] pat then (i : Int) else -1
  | c :: cs, i =>
    if listStartsWith (c :: cs) pat then (i : Int)
    else jsIndexOfAux pat cs (i + 1)

/-- JS `String.prototype.indexOf`: index of the first occurrence of `pat` in
`s`, `-1` if absent. -/
def jsIndexOf (s pat : String) : Int :=
  jsIndexOfAux pat.toList s.toList 0

/-- Is `c` one of the characters 0-9? -/
def isDigitChar (c : Char) : Bool :=
  48 ≤ c.toNat && c.toNat ≤ 57

/-- Consume leading decimal digits, returning the accumulated value, the
number of digits consumed and the rest. -/
def takeDigits : List Char → ℕ → ℕ → ℕ × ℕ × List Char
  | [], acc, n => (acc, n, [])
  | c :: cs, acc, n =>
    if isDigitChar c then takeDigits cs (acc * 10 + (c.toNat - 48)) (n + 1)
    else (acc, n, c :: cs)

/-- JS `parseFloat` (restricted to plain decimal literals, the only shapes
the tween code can meet: an optional sign, digits, an optional fraction).
Returns `none` for `NaN`, e.g. on a string such as "rgb(255,255,255)" whose
first character is not numeric.  Exponents and `Infinity` are not modelled;
no claim exercises them. -/
def parseFloat (s : String) : Option ℚ :=
  let cs := s.toList.dropWhile (fun c => c = ' ')
  let sign : ℚ := match cs with
    | '-' :: _ => -1
    | _ => 1
  let cs := match cs with
    | '-' :: rest => rest
    | '+' :: rest => rest
    | rest => rest
  match cs with
  | [] => none
  | c :: _ =>
    if isDigitChar c then
      let (ip, _, rest) := takeDigits cs 0 0
      match rest with
      | '.' :: rest' =>
        let (fp, fn, _) := takeDigits rest' 0 0
        some (sign * ((ip : ℚ) + (fp : ℚ) / ((10 : ℚ) ^ fn)))
      | _ => some (sign * (ip : ℚ))
    else if c = '.' then
      match cs with
      | _ :: rest' =>
        let (fp, fn, rest'') := takeDigits rest' 0 0
        if 0 < fn then
          let _ := rest''
          some (sign * ((fp : ℚ) / ((10 : ℚ) ^ fn)))
        else none
      | [] => none
    else none

/-- Expect a literal character at the head of the list. -/
def expectChar (c : Char) : List Char → Option (List Char)
  | x :: xs => if x = c then some xs else none
  | [] => none

/-- Modelled from the spec: the color utility `parse` half of `cq.color`
(the repository only ships the tween file; the spec describes the utility as
"parse(value) → (c0,c1,c2) numeric triple").  We parse the `rgb(r,g,b)`
string shapes used throughout the spec's examples; any other value is an
unparseable color (`none`), which the spec calls a fatal
`InvalidPropertyValue`. -/
def cqColor (v : JSVal) : Option (ℚ × ℚ × ℚ) :=
  match v with
  | JSVal.str s =>
    match s.toList with
    | 'r' :: 'g' :: 'b' :: '(' :: rest =>
      let (c0, n0, rest) := takeDigits rest 0 0
      if n0 = 0 then none else
      match expectChar ',' rest with
      | none => none
      | some rest =>
        let (c1, n1, rest) := takeDigits rest 0 0
        if n1 = 0 then none else
        match expectChar ',' rest with
        | none => none
        | some rest =>
          let (c2, n2, rest) := takeDigits rest 0 0
          if n2 = 0 then none else
          match expectChar ')' rest with
          | none => none
          | some _ => some ((c0 : ℚ), (c1 : ℚ), (c2 : ℚ))
    | _ => none
  | _ => none

/-- Modelled from the spec: `wrap(angle)` of the angle utility keeps the
value within a canonical full-circle range.  The spec leaves the angular
unit open; we take the full circle to be `360`.  No claim depends on the
unit. -/
def circWrap (a : ℚ) : ℚ :=
  a - 360 * ⌊a / 360⌋

/-- Modelled from the spec: `shortestSignedDelta(current, target)` of the
angle utility, the shortest signed angular distance with wraparound.  On a
non-numeric current value or a `NaN` target (`none`) the arithmetic yields
`NaN`, modelled as `CVal.nan`. -/
def circWrappedDistance (current : JSVal) (target : Option ℚ) : CVal :=
  match current, target with
  | JSVal.num c, some t =>
    let d := circWrap (t - c)
    CVal.num (if 180 < d then d - 360 else d)
  | _, _ => CVal.nan

/-- JS `x | 0` applied to a finite number: truncation toward zero. -/
def jsTrunc (q : ℚ) : Int :=
  if 0 ≤ q then ⌊q⌋ else -⌊-q⌋

/-- A linear easing environment: `PLAYGROUND.Utils.ease(progress, id)` with
every easing id mapped to the identity curve.  The spec treats easing ids as
opaque and the easing library as an external pure function, so "under a
linear easing" is modelled by running the tween against this environment. -/
def linearEase : ℚ → String → ℚ :=
  fun p _ => p

/-- The JS subexpression `"rad" > -1` at `Tween.js:266`: the string coerces
to `NaN` and the comparison is `false`. -/
def radGtNegOne : Bool := false

/-- The argument the source actually passes to `indexOf` at line 266:
the boolean `"rad" > -1` coerced to a string, i.e. "false". -/
def angleProbe : String := if radGtNegOne then "true" else "false"

/-- The state of one `PLAYGROUND.Tween`.  `ctxId` models the identity of the
context object (JS compares contexts with `===` in `discard`); `context`
holds its fields.  `removeFlag` is the `_remove` property written by
`TweenManager.add` / `TweenManager.remove`.  `events` is the log of emitted
event names (the `PLAYGROUND.Events` mixin with no handlers attached). -/
structure Tween where
  ctxId : ℕ
  context : Ctx
  actions : List TweenAction
  index : Int
  looped : Bool
  finished : Bool
  delta : ℚ
  prevEasing : String
  prevDuration : ℚ
  current : Option TweenAction
  currentAction : TweenCurrentAction
  duration : ℚ
  easing : String
  keys : List String
  before : List BVal
  change : List CVal
  types : List ℕ
  progress : ℚ
  removeFlag : Bool
  events : List String

/-- `new PLAYGROUND.Tween(manager, context)`: the constructor assigns
`actions = []`, `index = -1`, `prevEasing = "045"`, `prevDuration = 0.5`,
`current = false`; every other field is `undefined` (falsy booleans, and
numbers that are overwritten before any read, see the module comment). -/
def Tween.mk0 (cid : ℕ) (ctx : Ctx) : Tween where
  ctxId := cid
  context := ctx
  actions := []
  index := -1
  looped := false
  finished := false
  delta := 0
  prevEasing := "045"
  prevDuration := 0.5
  current := none
  currentAction := TweenCurrentAction.undef
  duration := 0
  easing := ""
  keys := []
  before := []
  change := []
  types := []
  progress := 0
  removeFlag := false
  events := []

/-- JS truthiness of an optional duration argument: `undefined` and `0` are
falsy. -/
def durTruthy (d : Option ℚ) : Bool :=
  match d with
  | some q => decide (q ≠ 0)
  | none => false

/-- JS truthiness of an optional easing argument: `undefined` and `""` are
falsy. -/
def easTruthy (e : Option String) : Bool :=
  match e with
  | some s => decide (s ≠ "")
  | none => false

/-- `Tween.prototype.add(properties, duration, easing)`.  A truthy duration
is remembered in `prevDuration`; otherwise the local `duration` becomes
`0.5` (note: not `prevDuration`).  Likewise for easing with default "045".
Returns `this`, modelled as the second component. -/
def Tween.add (t : Tween) (properties : TweenActionProps) (duration : Option ℚ)
    (easing : Option String) : Tween × Option Tween :=
  let d : ℚ := if durTruthy duration then duration.getD 0 else 0.5
  let pd : ℚ := if durTruthy duration then duration.getD 0 else t.prevDuration
  let e : String := if easTruthy easing then easing.getD "" else "045"
  let pe : String := if easTruthy easing then easing.getD "" else t.prevEasing
  let t' := { t with prevDuration := pd, prevEasing := pe,
                     actions := t.actions ++ [⟨properties, d, e⟩] }
  (t', some t')

/-- `Tween.prototype.to`: alias for `add`. -/
def Tween.to (t : Tween) (properties : TweenActionProps) (duration : Option ℚ)
    (easing : Option String) : Tween × Option Tween :=
  Tween.add t properties duration easing

/-- `Tween.prototype.loop()`: sets `looped = true`, returns `this`. -/
def Tween.loop (t : Tween) : Tween × Option Tween :=
  let t' := { t with looped := true }
  (t', some t')

/-- `Tween.prototype.repeat(times)` (named `repeatT`; `repeat` is a Lean
keyword): pushes `["repeat", times]` and falls off the end, returning
`undefined` (`none`). -/
def Tween.repeatT (t : Tween) (times : ℚ) : Tween × Option Tween :=
  ({ t with actions := t.actions ++ [⟨TweenActionProps.tag "repeat", times, ""⟩] },
   none)

/-- `Tween.prototype.wait(time)`: pushes `["wait", time]`, returns `this`. -/
def Tween.wait (t : Tween) (time : ℚ) : Tween × Option Tween :=
  let t' := { t with actions := t.actions ++ [⟨TweenActionProps.tag "wait", time, ""⟩] }
  (t', some t')

/-- `Tween.prototype.delay(time)`: pushes `["wait", time]` like `wait`, but
has no `return` statement, so it returns `undefined` (`none`). -/
def Tween.delay (t : Tween) (time : ℚ) : Tween × Option Tween :=
  ({ t with actions := t.actions ++ [⟨TweenActionProps.tag "wait", time, ""⟩] },
   none)

/-- `Tween.prototype.stop()` as it acts on the tween's own state:
`this.manager.remove(this)` only sets `this._remove = true`.  Returns
`this`. -/
def Tween.stop (t : Tween) : Tween × Option Tween :=
  let t' := { t with removeFlag := true }
  (t', some t')

/-- `Tween.prototype.play()` as it acts on the tween's own state:
`this.manager.add(this)` sets `this._remove = false` (and inserts the tween
into the manager's list, modelled at the manager level), then
`this.finished = false`. -/
def Tween.play (t : Tween) : Tween :=
  { t with removeFlag := false, finished := false }

/-- The per-key classification loop in `next()` (lines 255-292), over the
key/target pairs of the properties object, producing the `before`, `change`
and `types` arrays in order.

* numeric target: type 0, `change = target - value` (`NaN` when the context
  value is not a number);
* string target: the source tests
  `properties[key].indexOf("rad" > -1)`, i.e. `indexOf(false)`, i.e.
  `indexOf("false")`, which is truthy unless it returns `0` — so type 2
  (angle) for every string that does not start with "false", with
  `change = circWrappedDistance(value, parseFloat(target))`;
* everything else: type 1 (color) via `cq.color` on the current and target
  values; when either fails to parse, the JS arithmetic on the garbage
  produces entries that can only yield `NaN`s, modelled as
  `BVal.v JSVal.nan` / `CVal.nan`. -/
def decomposeProps (ctx : Ctx) : List (String × JSVal) → List BVal × List CVal × List ℕ
  | [] => ([], [], [])
  | (key, target) :: rest =>
    let value := ctx key
    let (bs, cs, ts) := decomposeProps ctx rest
    match target with
    | JSVal.num n =>
      let c := match value with
        | JSVal.num v => CVal.num (n - v)
        | _ => CVal.nan
      (BVal.v value :: bs, c :: cs, 0 :: ts)
    | JSVal.nan =>
      (BVal.v value :: bs, CVal.nan :: cs, 0 :: ts)
    | JSVal.str s =>
      if jsIndexOf s angleProbe ≠ 0 then
        (BVal.v value :: bs,
         circWrappedDistance value (parseFloat s) :: cs, 2 :: ts)
      else
        match cqColor value, cqColor target with
        | some (b0, b1, b2), some (a0, a1, a2) =>
          (BVal.rgb b0 b1 b2 :: bs,
           CVal.rgb (a0 - b0) (a1 - b1) (a2 - b2) :: cs, 1 :: ts)
        | _, _ => (BVal.v JSVal.nan :: bs, CVal.nan :: cs, 1 :: ts)
    | JSVal.undef =>
      match cqColor value, cqColor target with
      | some (b0, b1, b2), some (a0, a1, a2) =>
        (BVal.rgb b0 b1 b2 :: bs,
         CVal.rgb (a0 - b0) (a1 - b1) (a2 - b2) :: cs, 1 :: ts)
      | _, _ => (BVal.v JSVal.nan :: bs, CVal.nan :: cs, 1 :: ts)

/-- `Object.keys` applied to a string, as happens when a `"repeat"` action
reaches the `else` branch of `next()`: the character-index keys
"0", "1", ... with single-character string values. -/
def strCharProps (s : String) : List (String × JSVal) :=
  (List.range s.length).map
    (fun i => (toString i, JSVal.str (String.mk (s.toList.drop i |>.take 1))))

/-- JS array indexing `actions[i]`: `undefined` for a negative or
out-of-range index. -/
def jsGetAction (l : List TweenAction) (i : Int) : Option TweenAction :=
  if 0 ≤ i then l[i.toNat]? else none

/-- The part of `next()` from `this.current = this.actions[this.index]` on:
stores the current action and decomposes it.  A `"wait"` tag stores the wait
duration; any other action (a properties object, or the `"repeat"` tag,
which the dispatcher has no case for and which therefore falls into the
animate branch over `Object.keys` of the string) is decomposed for
`"animate"`.  When `actions[index]` is `undefined` (looped tween with an
empty queue) the source throws a `TypeError` at `this.current[0]`; we model
the state at the point of the throw (`current` assigned `undefined`). -/
def Tween.selectCurrent (t : Tween) : Tween :=
  match jsGetAction t.actions t.index with
  | none => { t with current := none }
  | some act =>
    match act.props with
    | TweenActionProps.tag s =>
      if s = "wait" then
        { t with current := some act, duration := act.duration,
                 currentAction := TweenCurrentAction.wait }
      else
        let props := strCharProps s
        let (bs, cs, ts) := decomposeProps t.context props
        { t with current := some act, keys := props.map Prod.fst,
                 before := bs, change := cs, types := ts,
                 currentAction := TweenCurrentAction.animate,
                 duration := act.duration, easing := act.easing }
    | TweenActionProps.obj props =>
      let (bs, cs, ts) := decomposeProps t.context props
      { t with current := some act, keys := props.map Prod.fst,
               before := bs, change := cs, types := ts,
               currentAction := TweenCurrentAction.animate,
               duration := act.duration, easing := act.easing }

/-- `Tween.prototype.next()`: zeroes `delta`, advances `index`; at the end
of the queue a looped tween emits "loop" and resets the cursor, otherwise
the tween emits "finished" and "finish", sets `finished`, asks the manager
for removal (`this._remove = true`) and returns without touching
`current`/`currentAction`; otherwise the new action is selected and
decomposed. -/
def Tween.next (t : Tween) : Tween :=
  let t := { t with delta := 0, index := t.index + 1 }
  if (t.actions.length : Int) ≤ t.index then
    if t.looped then
      Tween.selectCurrent
        { t with events := t.events ++ ["loop"], index := 0 }
    else
      { t with events := t.events ++ ["finished", "finish"],
               finished := true, removeFlag := true }
  else
    Tween.selectCurrent t

/-- The per-key write-back loop of `doAnimate` for one key: type 0 writes
`before + change*mod`; type 1 writes the `rgb(r,g,b)` string with
`| 0`-truncated channels; type 2 writes `circWrap(before + change*mod)`.
Any other type matches no `switch` case and writes nothing (`none`).
Combinations that JS can only produce on garbage inputs (non-numeric
`before` in a numeric or angle entry, `NaN` changes) yield `NaN`-valued
writes and are mapped to `JSVal.nan`. -/
def applyEntry (mod : ℚ) (b : BVal) (c : CVal) (ty : ℕ) : Option JSVal :=
  match ty with
  | 0 =>
    match b, c with
    | BVal.v (JSVal.num bv), CVal.num cv => some (JSVal.num (bv + cv * mod))
    | _, _ => some JSVal.nan
  | 1 =>
    match b, c with
    | BVal.rgb b0 b1 b2, CVal.rgb c0 c1 c2 =>
      some (JSVal.str ("rgb(" ++ toString (jsTrunc (b0 + c0 * mod)) ++ ","
        ++ toString (jsTrunc (b1 + c1 * mod)) ++ ","
        ++ toString (jsTrunc (b2 + c2 * mod)) ++ ")"))
    | _, _ => some JSVal.nan
  | 2 =>
    match b, c with
    | BVal.v (JSVal.num bv), CVal.num cv =>
      some (JSVal.num (circWrap (bv + cv * mod)))
    | _, _ => some JSVal.nan
  | _ => none

/-- The write-back loop of `doAnimate` over all keys, in order. -/
def applyKeys (mod : ℚ) (ctx : Ctx) :
    List String → List BVal → List CVal → List ℕ → Ctx
  | k :: ks, b :: bs, c :: cs, ty :: ts =>
    let ctx' := match applyEntry mod b c ty with
      | some v => ctxSet ctx k v
      | none => ctx
    applyKeys mod ctx' ks bs cs ts
  | _, _, _, _ => ctx

/-- `Tween.prototype.doAnimate(delta)`: `progress = min(1, delta/duration)`,
`mod = ease(progress, easing)`, write every key back, and when progress has
reached 1 immediately advance with `next()` (same frame).  `E` is the
external easing environment. -/
def Tween.doAnimate (E : ℚ → String → ℚ) (t : Tween) (delta : ℚ) : Tween :=
  let _ := delta
  let progress := min 1 (t.delta / t.duration)
  let mod := E progress t.easing
  let t := { t with progress := progress,
                    context := applyKeys mod t.context t.keys t.before
                      t.change t.types }
  if 1 ≤ t.progress then t.next else t

/-- `Tween.prototype.doWait(delta)`: advance once the accumulated `delta`
reaches the wait duration, otherwise do nothing. -/
def Tween.doWait (t : Tween) (delta : ℚ) : Tween :=
  let _ := delta
  if t.duration ≤ t.delta then t.next else t

/-- `Tween.prototype.step(delta)`: accumulate elapsed time, select an action
with `next()` if none is current, then dispatch on `currentAction`
("animate" / "wait"; anything else, including the initial `undefined`, hits
no `switch` case). -/
def Tween.step (E : ℚ → String → ℚ) (t : Tween) (delta : ℚ) : Tween :=
  let t := { t with delta := t.delta + delta }
  let t := if t.current = none then t.next else t
  match t.currentAction with
  | TweenCurrentAction.animate => Tween.doAnimate E t delta
  | TweenCurrentAction.wait => Tween.doWait t delta
  | TweenCurrentAction.undef => t

/-- `Tween.prototype.forward()`: `this.delta = this.duration; this.step(0)`. -/
def Tween.forward (E : ℚ → String → ℚ) (t : Tween) : Tween :=
  Tween.step E { t with delta := t.duration } 0

/-- `Tween.prototype.rewind()`: `this.delta = 0; this.step(0)`. -/
def Tween.rewind (E : ℚ → String → ℚ) (t : Tween) : Tween :=
  Tween.step E { t with delta := 0 } 0

/-- The scan in `end()` for the last action in the remaining queue whose
slot 0 is a JS object (`typeof === "object"`): `lastAnimationIndex` starts
at `0` and is overwritten by every qualifying position `i ≥ start`. -/
def lastAnimationIndex (acts : List TweenAction) (start : Int) : Int :=
  (List.range acts.length).foldl
    (fun acc i =>
      match acts[i]? with
      | some a =>
        match a.props with
        | TweenActionProps.obj _ => if start ≤ (i : Int) then (i : Int) else acc
        | TweenActionProps.tag _ => acc
      | none => acc)
    0

/-- `Tween.prototype.end()` (named `endT`; `end` is a Lean keyword): jump
the cursor just before the last object-typed action, select it with
`next()`, force its elapsed time to the full duration and perform
`step(0)`.  Returns `this`. -/
def Tween.endT (E : ℚ → String → ℚ) (t : Tween) : Tween × Option Tween :=
  let lai := lastAnimationIndex t.actions (t.index + 1)
  let t := { t with index := lai - 1 }
  let t := Tween.next t
  let t := { t with delta := t.duration }
  let t := Tween.step E t 0
  (t, some t)

/-- The combined state of a `TweenManager` and the tween objects it can
reach.  JS tweens are heap objects handled by reference; `store` maps tween
identities to their states, `tweens` is the manager's ordered collection of
references, `nextId` tracks the identities handed out so far by the factory
(every tween in a run of the system is created by `TweenManager.tween`, so
live identities are below `nextId`), and `mdelta` is the manager's
diagnostic `delta` accumulator. -/
structure TweenSystem where
  store : ℕ → Tween
  tweens : List ℕ
  nextId : ℕ
  mdelta : ℚ

/-- Read a tween object through its reference. -/
def TweenSystem.get (sys : TweenSystem) (i : ℕ) : Tween :=
  sys.store i

/-- Write a tween object through its reference. -/
def TweenSystem.set (sys : TweenSystem) (i : ℕ) (t : Tween) : TweenSystem :=
  { sys with store := fun j => if j = i then t else sys.store j }

/-- `TweenManager.prototype.add(tween)`: clear the tween's `_remove` flag,
then push it only if `indexOf` fails to find it. -/
def TweenManager.add (sys : TweenSystem) (i : ℕ) : TweenSystem :=
  let sys := sys.set i { sys.get i with removeFlag := false }
  if sys.tweens.contains i then sys
  else { sys with tweens := sys.tweens ++ [i] }

/-- `TweenManager.prototype.remove(tween)`: mark only. -/
def TweenManager.remove (sys : TweenSystem) (i : ℕ) : TweenSystem :=
  sys.set i { sys.get i with removeFlag := true }

/-- `TweenManager.prototype.discard(object, safe)`: walk the collection and
mark every tween whose context is (reference-)equal to `object`, except
`safe`. -/
def TweenManager.discard (sys : TweenSystem) (cid : ℕ) (safe : ℕ) : TweenSystem :=
  sys.tweens.foldl
    (fun s j =>
      if (s.get j).ctxId = cid ∧ j ≠ safe then TweenManager.remove s j else s)
    sys

/-- `TweenManager.prototype.tween(context)`: build a fresh
`PLAYGROUND.Tween` (a new object, hence a fresh reference), insert it with
`add`, and return it. -/
def TweenManager.tween (sys : TweenSystem) (cid : ℕ) (ctx : Ctx) :
    TweenSystem × ℕ :=
  let i := sys.nextId
  let sys := { sys with nextId := i + 1,
                        store := fun j => if j = i then Tween.mk0 cid ctx
                                          else sys.store j }
  (TweenManager.add sys i, i)

/-- The body of the `for` loop of `TweenManager.prototype.step`: each entry
is stepped unless already marked, and is excised (`splice(i--, 1)`) when
marked afterwards — including entries that became marked during their own
step in this very pass.  The recursion returns the surviving collection in
order. -/
def TweenManager.stepLoop (E : ℚ → String → ℚ) (delta : ℚ) :
    TweenSystem → List ℕ → TweenSystem × List ℕ
  | sys, [] => (sys, [])
  | sys, i :: rest =>
    let t := sys.get i
    let sys1 := if t.removeFlag then sys
                else sys.set i (Tween.step E t delta)
    let keep := ((sys1.get i).removeFlag = false)
    let r := TweenManager.stepLoop E delta sys1 rest
    (r.1, if keep then i :: r.2 else r.2)

/-- `TweenManager.prototype.step(delta)`: accumulate the diagnostic clock
and run the removal-aware pass over the collection. -/
def TweenManager.step (E : ℚ → String → ℚ) (sys : TweenSystem) (delta : ℚ) :
    TweenSystem :=
  let sys := { sys with mdelta := sys.mdelta + delta }
  let r := TweenManager.stepLoop E delta sys sys.tweens
  { r.1 with tweens := r.2 }

/-- `Tween.prototype.play()` at the system level:
`this.manager.add(this); this.finished = false; return this`. -/
def TweenSystem.play (sys : TweenSystem) (i : ℕ) : TweenSystem × Option ℕ :=
  let sys := TweenManager.add sys i
  let sys := sys.set i { sys.get i with finished := false }
  (sys, some i)

/-- `Tween.prototype.discard()` at the system level:
`this.manager.discard(this.context, this); return this`. -/
def TweenSystem.discard (sys : TweenSystem) (i : ℕ) : TweenSystem × Option ℕ :=
  (TweenManager.discard sys (sys.get i).ctxId i, some i)

/-- A context object holding one numeric field, `x = 0`. -/
def ctx0 : Ctx := fun k => if k = "x" then JSVal.num 0 else JSVal.undef

/-- A context object holding one color-string field,
`color = "rgb(0,0,0)"`. -/
def ctxColor : Ctx :=
  fun k => if k = "color" then JSVal.str "rgb(0,0,0)" else JSVal.undef

/-- `manager.tween(ctx0).to(x:10, duration 1000, easing "lin")`. -/
def c1t : Tween :=
  (Tween.to (Tween.mk0 0 ctx0) (TweenActionProps.obj [("x", JSVal.num 10)])
    (some 1000) (some "lin")).1

/-- `c1t` after `step(500)`. -/
def c1s1 : Tween := Tween.step linearEase c1t 500

/-- `c1t` after `step(500); step(500)` (cumulative supplied time 1000). -/
def c1s2 : Tween := Tween.step linearEase c1s1 500

/-- `c1t` after three `step(500)` calls (cumulative supplied time 1500). -/
def c1s3 : Tween := Tween.step linearEase c1s2 500

/-- A tween on `ctxColor` animating toward `color = "rgb(255,255,255)"`
over 1000ms. -/
def c4t : Tween :=
  (Tween.to (Tween.mk0 0 ctxColor)
    (TweenActionProps.obj [("color", JSVal.str "rgb(255,255,255)")])
    (some 1000) (some "lin")).1

/-- `c4t` after the selecting `step(0)`. -/
def c4s1 : Tween := Tween.step linearEase c4t 0

/-- `c4t` stepped to progress 0.5 (a further `step(500)`). -/
def c4s2 : Tween := Tween.step linearEase c4s1 500

/-- A tween after `add(x:1, duration 2000, easing "e")`. -/
def c5t1 : Tween :=
  (Tween.add (Tween.mk0 0 ctx0) (TweenActionProps.obj [("x", JSVal.num 1)])
    (some 2000) (some "e")).1

/-- `c5t1` after a further `add(x:2)` with no duration/easing argument. -/
def c5t2 : Tween :=
  (Tween.add c5t1 (TweenActionProps.obj [("x", JSVal.num 2)]) none none).1

/-- `manager.tween(ctx0).wait(200).to(x:10, duration 1000)`. -/
def c6t : Tween :=
  (Tween.to ((Tween.wait (Tween.mk0 0 ctx0) 200).1)
    (TweenActionProps.obj [("x", JSVal.num 10)]) (some 1000) (some "lin")).1

/-- `c6t` after `step(100)`. -/
def c6s1 : Tween := Tween.step linearEase c6t 100

/-- `c6t` after two `step(100)` calls (cumulative supplied time 200). -/
def c6s2 : Tween := Tween.step linearEase c6s1 100

/-- `c6t` after three `step(100)` calls. -/
def c6s3 : Tween := Tween.step linearEase c6s2 100

/-- `c6t` after four `step(100)` calls. -/
def c6s4 : Tween := Tween.step linearEase c6s3 100

/-- A tween with two queued `Animate` actions (`x:10` over 1000ms, then
`x:20` over 500ms). -/
def c9t : Tween :=
  (Tween.to ((Tween.to (Tween.mk0 0 ctx0)
      (TweenActionProps.obj [("x", JSVal.num 10)]) (some 1000) (some "lin")).1)
    (TweenActionProps.obj [("x", JSVal.num 20)]) (some 500) (some "lin")).1

/-- `c9t` after the selecting `step(0)`: the first action is current,
`index = 0`. -/
def c9sel : Tween := Tween.step linearEase c9t 0

/-- A one-tween system: tween 0 has an empty queue and is not looped, so
its first step finishes it immediately. -/
def sysC2 : TweenSystem :=
  ⟨fun _ => Tween.mk0 0 ctx0, [0], 1, 0⟩

/-- A looped one-action tween, used in concrete manager systems. -/
def tweenLoopW : Tween :=
  ((Tween.to (Tween.mk0 0 ctx0) (TweenActionProps.obj [("x", JSVal.num 10)])
     (some 1000) (some "lin")).1.loop).1

/-- A two-tween system: tween 0 is a live looped tween, tween 1 is already
marked for removal (`stop()`). -/
def sysW : TweenSystem :=
  ⟨fun i => if i = 0 then tweenLoopW else (Tween.stop (Tween.mk0 1 ctx0)).1,
   [0, 1], 2, 0⟩

/-- The cursor/bookkeeping invariant of a tween:
`-1 ≤ index ≤ len(actions)`; while the tween is unfinished the cursor is
strictly inside the queue, except for the degenerate looped-empty-queue
state (where the source throws while re-selecting and leaves `index = 0`);
a falsy `current` means the dispatcher has nothing selected
(`currentAction` still `undefined`); and with an empty queue nothing can
ever have been selected. -/
def TweenInv (t : Tween) : Prop :=
  -1 ≤ t.index ∧
  t.index ≤ (t.actions.length : Int) ∧
  (t.finished = false →
     t.index < (t.actions.length : Int) ∨
     (t.looped = true ∧ t.actions.length = 0 ∧ t.index = 0)) ∧
  (t.current = none → t.currentAction = TweenCurrentAction.undef) ∧
  (t.actions.length = 0 → t.current = none)

/-- Decidability of `TweenInv`, so concrete states can be checked. -/
instance (t : Tween) : Decidable (TweenInv t) := by
  unfold TweenInv; infer_instance

/-- The manager-collection invariant: the collection holds no duplicate
references, and every reference was handed out by the factory. -/
def SysInv (sys : TweenSystem) : Prop :=
  sys.tweens.Nodup ∧ ∀ j ∈ sys.tweens, j < sys.nextId

/-- Decidability of `SysInv`. -/
instance (sys : TweenSystem) : Decidable (SysInv sys) := by
  unfold SysInv; infer_instance

/-- `selectCurrent` only writes the current-action bookkeeping fields: the
cursor, queue, lifecycle flags and clocks are untouched; on a successful
lookup it stores the looked-up action in `current` and sets a real
`currentAction`; on a failed lookup (`actions[index]` is `undefined`) it
assigns `current = undefined` and changes nothing else. -/
theorem Tween.selectCurrent_spec (t : Tween) :
    ((Tween.selectCurrent t).index = t.index ∧
     (Tween.selectCurrent t).actions = t.actions ∧
     (Tween.selectCurrent t).finished = t.finished ∧
     (Tween.selectCurrent t).looped = t.looped ∧
     (Tween.selectCurrent t).delta = t.delta ∧
     (Tween.selectCurrent t).progress = t.progress ∧
     (Tween.selectCurrent t).removeFlag = t.removeFlag ∧
     (Tween.selectCurrent t).events = t.events) ∧
    (jsGetAction t.actions t.index = none →
       (Tween.selectCurrent t).current = none ∧
       (Tween.selectCurrent t).currentAction = t.currentAction) ∧
    (∀ a, jsGetAction t.actions t.index = some a →
       (Tween.selectCurrent t).current = some a ∧
       (Tween.selectCurrent t).currentAction ≠ TweenCurrentAction.undef) := by
  unfold Tween.selectCurrent
  cases hg : jsGetAction t.actions t.index with
  | none => simp
  | some act =>
    cases hp : act.props with
    | tag s =>
      by_cases hs : s = "wait" <;> simp [hp, hs]
    | obj props => simp [hp]

/-- A nonnegative in-range index reads an actual action. -/
theorem jsGetAction_some (l : List TweenAction) (i : Int) (h0 : 0 ≤ i)
    (hl : i < (l.length : Int)) : ∃ a, jsGetAction l i = some a := by
  unfold jsGetAction
  rw [if_pos h0]
  have ht : i.toNat < l.length := by omega
  exact ⟨l[i.toNat], List.getElem?_eq_getElem ht⟩

/-- Reading index 0 and finding `undefined` means the queue is empty. -/
theorem jsGetAction_zero_none (l : List TweenAction)
    (h : jsGetAction l 0 = none) : l.length = 0 := by
  unfold jsGetAction at h
  rw [if_pos le_rfl] at h
  rw [List.getElem?_eq_none_iff] at h
  omega

/-- `next()` always leaves the per-action clock at 0. -/
theorem Tween.next_delta (t : Tween) : (Tween.next t).delta = 0 := by
  simp only [Tween.next]
  split
  · split
    · exact (Tween.selectCurrent_spec _).1.2.2.2.2.1
    · rfl
  · exact (Tween.selectCurrent_spec _).1.2.2.2.2.1

/-- `next()` never modifies the queue. -/
theorem Tween.next_actions (t : Tween) : (Tween.next t).actions = t.actions := by
  simp only [Tween.next]
  split
  · split
    · exact (Tween.selectCurrent_spec _).1.2.1
    · rfl
  · exact (Tween.selectCurrent_spec _).1.2.1

/-- `next()` never modifies the recorded progress. -/
theorem Tween.next_progress (t : Tween) : (Tween.next t).progress = t.progress := by
  simp only [Tween.next]
  split
  · split
    · exact (Tween.selectCurrent_spec _).1.2.2.2.2.2.1
    · rfl
  · exact (Tween.selectCurrent_spec _).1.2.2.2.2.2.1

/-- `selectCurrent` never writes the context: it only reads it while
decomposing an `Animate` action. -/
theorem Tween.selectCurrent_context (t : Tween) :
    (Tween.selectCurrent t).context = t.context := by
  unfold Tween.selectCurrent
  cases hg : jsGetAction t.actions t.index with
  | none => rfl
  | some act =>
    cases hp : act.props with
    | tag s =>
      by_cases hs : s = "wait" <;> simp [hp, hs]
    | obj props => simp [hp]

/-- `next()` never writes the context. -/
theorem Tween.next_context (t : Tween) : (Tween.next t).context = t.context := by
  simp only [Tween.next]
  split
  · split
    · exact Tween.selectCurrent_context _
    · rfl
  · exact Tween.selectCurrent_context _

/-- For a non-looped tween, `next()` advances the cursor by exactly one,
whether or not the queue end was reached. -/
theorem Tween.next_index_nonloop (t : Tween) (h : t.looped = false) :
    (Tween.next t).index = t.index + 1 := by
  simp only [Tween.next, h]
  split
  · rfl
  · exact (Tween.selectCurrent_spec _).1.1

/-- When nothing was ever selected (`currentAction` still `undefined`),
`next()` either leaves it that way (the terminal path) or proceeds through
selection, leaving `finished` untouched. -/
theorem Tween.next_live_of_ca (t : Tween)
    (hca : t.currentAction = TweenCurrentAction.undef) :
    (Tween.next t).currentAction = TweenCurrentAction.undef ∨
    (Tween.next t).finished = t.finished := by
  simp only [Tween.next]
  split
  · split
    · right; exact (Tween.selectCurrent_spec _).1.2.2.1
    · left; exact hca
  · right; exact (Tween.selectCurrent_spec _).1.2.2.1

/-- When the cursor points into (or at the boundary of) the queue and the
boundary is only reachable in the looped-empty-queue state, re-selecting
the current action preserves the cursor invariant. -/
theorem Tween.selectCurrent_inv (t : Tween)
    (h0 : 0 ≤ t.index) (hle : t.index ≤ (t.actions.length : Int))
    (hempty : t.actions.length = 0 →
       t.current = none ∧ t.currentAction = TweenCurrentAction.undef)
    (hend : t.index = (t.actions.length : Int) →
       t.looped = true ∧ t.actions.length = 0) :
    TweenInv (Tween.selectCurrent t) := by
  obtain ⟨hfields, hnone, hsome⟩ := Tween.selectCurrent_spec t
  rcases hg : jsGetAction t.actions t.index with _ | a
  · obtain ⟨hcn, hcan⟩ := hnone hg
    have hgeL : (t.actions.length : Int) ≤ t.index := by
      unfold jsGetAction at hg
      rw [if_pos h0] at hg
      rw [List.getElem?_eq_none_iff] at hg
      omega
    have hidx : t.index = (t.actions.length : Int) := le_antisymm hle hgeL
    obtain ⟨hl, hlen⟩ := hend hidx
    refine ⟨?_, ?_, ?_, ?_, ?_⟩
    · rw [hfields.1]; omega
    · rw [hfields.1, hfields.2.1]; exact hle
    · intro _
      right
      refine ⟨?_, ?_, ?_⟩
      · rw [hfields.2.2.2.1]; exact hl
      · rw [hfields.2.1]; exact hlen
      · rw [hfields.1]; omega
    · intro _; rw [hcan]; exact (hempty hlen).2
    · intro _; exact hcn
  · obtain ⟨hcs, _⟩ := hsome a hg
    have hlt : t.index < (t.actions.length : Int) := by
      unfold jsGetAction at hg
      rw [if_pos h0] at hg
      obtain ⟨hx, _⟩ := List.getElem?_eq_some_iff.mp hg
      omega
    refine ⟨?_, ?_, ?_, ?_, ?_⟩
    · rw [hfields.1]; omega
    · rw [hfields.1, hfields.2.1]; exact hle
    · intro _; left; rw [hfields.1, hfields.2.1]; exact hlt
    · intro hx; rw [hcs] at hx; cases hx
    · intro hx; rw [hfields.2.1] at hx; omega

/-- `next()` preserves the cursor invariant on an unfinished tween. -/
theorem Tween.next_inv (t : Tween) (hI : TweenInv t) (hf : t.finished = false) :
    TweenInv (Tween.next t) := by
  obtain ⟨h1, h2, h3, h4, h5⟩ := hI
  have hd := h3 hf
  simp only [Tween.next]
  split
  · rename_i hge
    have hge' : (t.actions.length : Int) ≤ t.index + 1 := hge
    split
    · rename_i hloop
      have hloop' : t.looped = true := hloop
      apply Tween.selectCurrent_inv
      · show (0 : Int) ≤ 0
        norm_num
      · show (0 : Int) ≤ (t.actions.length : Int)
        omega
      · intro hlen
        exact ⟨h5 hlen, h4 (h5 hlen)⟩
      · intro hidx
        have hidx' : (0 : Int) = (t.actions.length : Int) := hidx
        refine ⟨hloop', ?_⟩
        show t.actions.length = 0
        omega
    · rename_i hloop
      have hloop' : ¬ t.looped = true := hloop
      refine ⟨?_, ?_, ?_, ?_, ?_⟩
      · show (-1 : Int) ≤ t.index + 1
        omega
      · show t.index + 1 ≤ (t.actions.length : Int)
        rcases hd with hlt | ⟨hl, _, _⟩
        · omega
        · exact absurd hl hloop'
      · intro hx
        exact absurd (show (true : Bool) = false from hx) (by simp)
      · exact h4
      · exact h5
  · rename_i hge
    have hge' : ¬ (t.actions.length : Int) ≤ t.index + 1 := hge
    apply Tween.selectCurrent_inv
    · show (0 : Int) ≤ t.index + 1
      omega
    · show t.index + 1 ≤ (t.actions.length : Int)
      omega
    · intro hlen
      exact ⟨h5 hlen, h4 (h5 hlen)⟩
    · intro hidx
      have hidx' : t.index + 1 = (t.actions.length : Int) := hidx
      exact absurd hidx' (by omega)

/-- `doAnimate` preserves the cursor invariant on an unfinished tween: it
only rewrites `progress` and the context, and any `next()` it triggers
starts from an unfinished invariant state. -/
theorem Tween.doAnimate_inv (E : ℚ → String → ℚ) (t : Tween) (d : ℚ)
    (hI : TweenInv t) (hf : t.finished = false) :
    TweenInv (Tween.doAnimate E t d) := by
  simp only [Tween.doAnimate]
  split
  · exact Tween.next_inv _ hI hf
  · exact hI

/-- `doWait` preserves the cursor invariant on an unfinished tween. -/
theorem Tween.doWait_inv (t : Tween) (d : ℚ)
    (hI : TweenInv t) (hf : t.finished = false) :
    TweenInv (Tween.doWait t d) := by
  simp only [Tween.doWait]
  split
  · exact Tween.next_inv _ hI hf
  · exact hI

/-- `step` preserves the cursor invariant on an unfinished tween. -/
theorem Tween.step_inv (E : ℚ → String → ℚ) (t : Tween) (d : ℚ)
    (hI : TweenInv t) (hf : t.finished = false) :
    TweenInv (Tween.step E t d) := by
  by_cases hc : t.current = none
  · have hca : t.currentAction = TweenCurrentAction.undef := hI.2.2.2.1 hc
    simp only [Tween.step, hc, if_pos]
    have hIL : TweenInv (Tween.next { t with delta := t.delta + d, current := none }) := by
      apply Tween.next_inv
      · exact ⟨hI.1, hI.2.1, hI.2.2.1, fun _ => hca, fun _ => rfl⟩
      · exact hf
    have hlive := Tween.next_live_of_ca
      { t with delta := t.delta + d, current := none } hca
    cases hciq : (Tween.next { t with delta := t.delta + d, current := none }).currentAction with
    | undef => exact hIL
    | animate =>
      rcases hlive with hu | hfin
      · rw [hciq] at hu; cases hu
      · exact Tween.doAnimate_inv E _ d hIL (by rw [hfin]; exact hf)
    | wait =>
      rcases hlive with hu | hfin
      · rw [hciq] at hu; cases hu
      · exact Tween.doWait_inv _ d hIL (by rw [hfin]; exact hf)
  · simp only [Tween.step, hc, if_neg, if_false]
    cases hciq : t.currentAction with
    | undef =>
      exact ⟨hI.1, hI.2.1, hI.2.2.1, fun _ => rfl, hI.2.2.2.2⟩
    | animate =>
      apply Tween.doAnimate_inv
      · exact ⟨hI.1, hI.2.1, hI.2.2.1, fun hx => absurd hx hc, hI.2.2.2.2⟩
      · exact hf
    | wait =>
      apply Tween.doWait_inv
      · exact ⟨hI.1, hI.2.1, hI.2.2.1, fun hx => absurd hx hc, hI.2.2.2.2⟩
      · exact hf

/-- Appending an action (and updating the remembered defaults) preserves
the cursor invariant. -/
theorem tweenInv_push (t : Tween) (a : TweenAction) (pd : ℚ) (pe : String)
    (hI : TweenInv t) :
    TweenInv { t with prevDuration := pd, prevEasing := pe,
                      actions := t.actions ++ [a] } := by
  obtain ⟨h1, h2, h3, h4, h5⟩ := hI
  refine ⟨h1, ?_, ?_, h4, ?_⟩
  · show t.index ≤ ((t.actions ++ [a]).length : Int)
    simp only [List.length_append, List.length_singleton]
    omega
  · intro hfin
    left
    show t.index < ((t.actions ++ [a]).length : Int)
    simp only [List.length_append, List.length_singleton]
    rcases h3 hfin with hlt | ⟨_, hlen, hidx⟩
    · omega
    · omega
  · intro hlen
    have hlen' : (t.actions ++ [a]).length = 0 := hlen
    simp at hlen'

/-- `add` preserves the cursor invariant (no precondition: it only appends
to the queue). -/
theorem Tween.add_inv (t : Tween) (p : TweenActionProps) (d : Option ℚ)
    (e : Option String) (hI : TweenInv t) : TweenInv (Tween.add t p d e).1 := by
  simp only [Tween.add]
  exact tweenInv_push t _ _ _ hI

/-- `loop` preserves the cursor invariant. -/
theorem Tween.loop_inv (t : Tween) (hI : TweenInv t) :
    TweenInv (Tween.loop t).1 := by
  obtain ⟨h1, h2, h3, h4, h5⟩ := hI
  refine ⟨h1, h2, ?_, h4, h5⟩
  intro hfin
  rcases h3 hfin with hlt | ⟨_, hlen, hidx⟩
  · exact Or.inl hlt
  · exact Or.inr ⟨rfl, hlen, hidx⟩

/-- `play` preserves the cursor invariant on an unfinished tween. -/
theorem Tween.play_inv (t : Tween) (hI : TweenInv t) (hf : t.finished = false) :
    TweenInv (Tween.play t) := by
  obtain ⟨h1, h2, h3, h4, h5⟩ := hI
  exact ⟨h1, h2, fun _ => h3 hf, h4, h5⟩

/-- A freshly constructed tween satisfies the cursor invariant. -/
theorem Tween.mk0_inv (cid : ℕ) (ctx : Ctx) : TweenInv (Tween.mk0 cid ctx) := by
  refine ⟨?_, ?_, ?_, fun _ => rfl, fun _ => rfl⟩
  · show (-1 : Int) ≤ -1
    omega
  · show (-1 : Int) ≤ (([] : List TweenAction).length : Int)
    simp
  · intro _
    left
    show (-1 : Int) < (([] : List TweenAction).length : Int)
    simp

/-- Updating one tween leaves every other reference's state alone. -/
theorem TweenSystem.set_store_ne (sys : TweenSystem) (i j : ℕ) (t : Tween)
    (h : j ≠ i) : ((TweenSystem.set sys i t).store j) = sys.store j := by
  simp [TweenSystem.set, h]

/-- The manager pass never touches the factory counter. -/
theorem TweenManager.stepLoop_nextId (E : ℚ → String → ℚ) (d : ℚ) :
    ∀ (l : List ℕ) (sys : TweenSystem),
      (TweenManager.stepLoop E d sys l).1.nextId = sys.nextId := by
  intro l
  induction l with
  | nil => intro sys; rfl
  | cons i rest ih =>
    intro sys
    simp only [TweenManager.stepLoop]
    rw [ih]
    split
    · rfl
    · rfl

/-- The manager pass only writes the store at references it visits. -/
theorem TweenManager.stepLoop_store_notmem (E : ℚ → String → ℚ) (d : ℚ) :
    ∀ (l : List ℕ) (sys : TweenSystem) (j : ℕ), j ∉ l →
      (TweenManager.stepLoop E d sys l).1.store j = sys.store j := by
  intro l
  induction l with
  | nil => intro sys j _; rfl
  | cons i rest ih =>
    intro sys j hj
    have hji : j ≠ i := fun h => hj (h ▸ List.mem_cons_self i rest)
    have hjr : j ∉ rest := fun h => hj (List.mem_cons_of_mem i h)
    simp only [TweenManager.stepLoop]
    rw [ih _ j hjr]
    split
    · rfl
    · exact TweenSystem.set_store_ne sys i j _ hji

/-- The surviving collection of a manager pass is a subsequence of the
input collection (no additions, order preserved). -/
theorem TweenManager.stepLoop_sublist (E : ℚ → String → ℚ) (d : ℚ) :
    ∀ (l : List ℕ) (sys : TweenSystem),
      (TweenManager.stepLoop E d sys l).2.Sublist l := by
  intro l
  induction l with
  | nil => intro sys; exact List.Sublist.refl []
  | cons i rest ih =>
    intro sys
    simp only [TweenManager.stepLoop]
    split <;> split
    · exact List.Sublist.cons₂ i (ih _)
    · exact List.Sublist.cons i (ih _)
    · exact List.Sublist.cons₂ i (ih _)
    · exact List.Sublist.cons i (ih _)

/-- After a manager pass over a duplicate-free collection, every survivor's
`_remove` flag is clear: marked entries — including entries marked during
their own step in this very pass — are gone already. -/
theorem TweenManager.stepLoop_no_pending (E : ℚ → String → ℚ) (d : ℚ) :
    ∀ (l : List ℕ) (sys : TweenSystem), l.Nodup →
      ∀ j ∈ (TweenManager.stepLoop E d sys l).2,
        ((TweenManager.stepLoop E d sys l).1.store j).removeFlag = false := by
  intro l
  induction l with
  | nil => intro sys _ j hj; cases hj
  | cons i rest ih =>
    intro sys hnd j hj
    have hirest : i ∉ rest := (List.nodup_cons.mp hnd).1
    have hndr : rest.Nodup := (List.nodup_cons.mp hnd).2
    simp only [TweenManager.stepLoop] at hj ⊢
    by_cases hk : ((if (sys.get i).removeFlag
        then sys else sys.set i (Tween.step E (sys.get i) d)).get i).removeFlag
        = false
    · rw [if_pos hk] at hj
      rcases List.mem_cons.mp hj with hji | hjr
      · subst hji
        rw [TweenManager.stepLoop_store_notmem E d rest _ j hirest]
        exact hk
      · exact ih _ hndr j hjr
    · rw [if_neg hk] at hj
      exact ih _ hndr j hj

/-- `TweenManager.add` on a reference already in the collection: the
collection is unchanged; the tween itself only has its `_remove` flag
cleared; no other tween is touched. -/
theorem TweenManager.add_mem_spec (sys : TweenSystem) (i : ℕ)
    (hmem : i ∈ sys.tweens) :
    (TweenManager.add sys i).tweens = sys.tweens ∧
    (TweenManager.add sys i).store i = { sys.store i with removeFlag := false } ∧
    ∀ j, j ≠ i → (TweenManager.add sys i).store j = sys.store j := by
  have hcon : ((TweenSystem.set sys i
      { sys.get i with removeFlag := false }).tweens.contains i) = true := by
    simpa using hmem
  simp only [TweenManager.add, hcon, if_true]
  refine ⟨rfl, ?_, ?_⟩
  · simp [TweenSystem.set, TweenSystem.get]
  · intro j hj
    simp [TweenSystem.set, hj]

/-- `TweenManager.add` preserves the collection invariant whenever its
argument is a real tween reference (one the factory handed out). -/
theorem sysInv_add (sys : TweenSystem) (i : ℕ) (hI : SysInv sys)
    (hi : i < sys.nextId) : SysInv (TweenManager.add sys i) := by
  obtain ⟨hn, hb⟩ := hI
  simp only [TweenManager.add]
  split
  · exact ⟨hn, hb⟩
  · rename_i hcon
    have hni : i ∉ sys.tweens := by simpa using hcon
    refine ⟨?_, ?_⟩
    · rw [List.nodup_append]
      refine ⟨hn, List.nodup_singleton i, ?_⟩
      intro a ha hai
      rw [List.mem_singleton] at hai
      subst hai
      exact hni ha
    · intro j hj
      rcases List.mem_append.mp hj with hj | hj
      · exact hb j hj
      · rw [List.mem_singleton] at hj
        subst hj
        exact hi

/-- `TweenManager.remove` touches only the store, so it preserves the
collection invariant. -/
theorem sysInv_remove (sys : TweenSystem) (i : ℕ) (hI : SysInv sys) :
    SysInv (TweenManager.remove sys i) :=
  hI

/-- The `discard` marking loop never changes the collection or the factory
counter. -/
theorem discard_foldl_fields (cid safe : ℕ) :
    ∀ (l : List ℕ) (sys : TweenSystem),
      (l.foldl (fun s j => if (s.get j).ctxId = cid ∧ j ≠ safe
                           then TweenManager.remove s j else s) sys).tweens
        = sys.tweens ∧
      (l.foldl (fun s j => if (s.get j).ctxId = cid ∧ j ≠ safe
                           then TweenManager.remove s j else s) sys).nextId
        = sys.nextId := by
  intro l
  induction l with
  | nil => intro sys; exact ⟨rfl, rfl⟩
  | cons i rest ih =>
    intro sys
    simp only [List.foldl_cons]
    refine ⟨?_, ?_⟩
    · rw [(ih _).1]
      split
      · rfl
      · rfl
    · rw [(ih _).2]
      split
      · rfl
      · rfl

/-- `TweenManager.discard` preserves the collection invariant. -/
theorem sysInv_discard (sys : TweenSystem) (cid safe : ℕ) (hI : SysInv sys) :
    SysInv (TweenManager.discard sys cid safe) := by
  obtain ⟨h1, h2⟩ := discard_foldl_fields cid safe sys.tweens sys
  unfold TweenManager.discard
  unfold SysInv
  rw [h1, h2]
  exact hI

/-- The factory preserves the collection invariant: the fresh reference is
new (`nextId`) and all old bounds lift along the bumped counter. -/
theorem sysInv_tween (sys : TweenSystem) (cid : ℕ) (ctx : Ctx) (hI : SysInv sys) :
    SysInv (TweenManager.tween sys cid ctx).1 := by
  simp only [TweenManager.tween]
  apply sysInv_add
  · exact ⟨hI.1, fun j hj => Nat.lt_succ_of_lt (hI.2 j hj)⟩
  · exact Nat.lt_succ_self _

/-- `TweenManager.step` preserves the collection invariant: survivors form
a subsequence of the previous collection. -/
theorem sysInv_step (E : ℚ → String → ℚ) (sys : TweenSystem) (d : ℚ)
    (hI : SysInv sys) : SysInv (TweenManager.step E sys d) := by
  obtain ⟨h1, h2⟩ := hI
  simp only [TweenManager.step]
  refine ⟨?_, ?_⟩
  · exact List.Nodup.sublist (TweenManager.stepLoop_sublist E d _ _) h1
  · intro j hj
    have hj' := (TweenManager.stepLoop_sublist E d
      sys.tweens { sys with mdelta := sys.mdelta + d }).subset hj
    rw [TweenManager.stepLoop_nextId]
    exact h2 j hj'

/-- `play()` preserves the collection invariant. -/
theorem sysInv_play (sys : TweenSystem) (i : ℕ) (hI : SysInv sys)
    (hi : i < sys.nextId) : SysInv (TweenSystem.play sys i).1 :=
  sysInv_add sys i hI hi

/-- `discard()` (the tween method) preserves the collection invariant. -/
theorem sysInv_discard_method (sys : TweenSystem) (i : ℕ) (hI : SysInv sys) :
    SysInv (TweenSystem.discard sys i).1 :=
  sysInv_discard sys _ i hI

/-- C1 (counterexample): the claim fails on the code.  With context
`x = 0` and `to(x:10, duration 1000)` under a linear easing, a single
`step(500)` leaves `x = 0`, not approximately 5 — `next()` zeroes the
tween's elapsed-time accumulator when it selects the action, so the
selecting step contributes no time; and after cumulative supplied time
exactly 1000 (two `step(500)` calls) `x = 5`, not 10, with the cursor
still on the action and the tween unfinished. -/
theorem c1_linear_interpolation_counterexample :
    c1s1.context "x" = JSVal.num 0 ∧
    c1s2.context "x" = JSVal.num 5 ∧
    c1s2.context "x" ≠ JSVal.num 10 ∧
    c1s2.index = 0 ∧
    c1s2.finished = false := by
  with_unfolding_all decide

/-- C1 (amended): the first `step` after the action is selected contributes
no elapsed time, so the schedule is shifted by one call: `step(500)` gives
`x = 0`; cumulative 1000 gives `x = 5`; cumulative 1500 gives `x = 10`
exactly, and the tween advances past the action (here finishing, since the
queue held only this action, and requesting removal). -/
theorem c1_linear_interpolation_shifted :
    c1s1.context "x" = JSVal.num 0 ∧
    c1s2.context "x" = JSVal.num 5 ∧
    c1s3.context "x" = JSVal.num 10 ∧
    c1s3.index = 1 ∧
    c1s3.finished = true ∧
    c1s3.removeFlag = true := by
  with_unfolding_all decide

/-- C3 (code bug): the classification test at `Tween.js:266`,
`properties[key].indexOf("rad" > -1)`, evaluates the constant `"rad" > -1`
(which is `false`, coerced by `indexOf` to the string "false") instead of
testing for an angle suffix.  `indexOf` is truthy unless it returns 0, so a
color string such as "rgb(255,255,255)" is classified as an angle (type 2),
while a string beginning with "false" is the only kind that reaches the
color branch (type 1).  The intended classification — angle exactly for
angle expressions, color otherwise — is what the claim and the spec state;
the code diverges from it. -/
theorem c3_angle_classification_bug :
    (decomposeProps ctxColor [("color", JSVal.str "rgb(255,255,255)")]).2.2 = [2] ∧
    (decomposeProps ctxColor [("color", JSVal.str "falsehood")]).2.2 = [1] ∧
    jsIndexOf "rgb(255,255,255)" angleProbe = -1 ∧
    jsIndexOf "falsehood" angleProbe = 0 ∧
    (decomposeProps ctx0 [("x", JSVal.str "3.5rad")]).2.2 = [2] := by
  with_unfolding_all decide

/-- C4 (code bug): for context `color = "rgb(0,0,0)"` and target
`"rgb(255,255,255)"`, the classification bug of C3 sends the key down the
angle path (type 2), so at progress 0.5 under a linear easing the code
leaves `color = NaN` (angle arithmetic over a non-numeric `before` value),
not the claimed "rgb(127,127,127)".  The final conjunct shows the color
write-back the code itself would have produced had the color branch been
taken: exactly the claimed "rgb(127,127,127)" (channels truncated,
comma-separated, no spaces) — i.e. the claim describes the intended
behavior and the classification slip is what breaks it. -/
theorem c4_color_interpolation_bug :
    c4s2.progress = 1/2 ∧
    c4s2.types = [2] ∧
    c4s2.context "color" = JSVal.nan ∧
    c4s2.context "color" ≠ JSVal.str "rgb(127,127,127)" ∧
    applyEntry (1/2) (BVal.rgb 0 0 0) (CVal.rgb 255 255 255) 1 =
      some (JSVal.str "rgb(127,127,127)") := by
  with_unfolding_all decide

/-- C5 (counterexample): `add(x:1, 2000, "e")` does remember the supplied
duration and easing in `prevDuration`/`prevEasing`, but a following `add`
with both omitted appends an action with the constant defaults `0.5` /
"045", not the remembered `2000` / "e" — the remembered values are never
used as defaults. -/
theorem c5_defaults_counterexample :
    c5t1.prevDuration = 2000 ∧
    c5t1.prevEasing = "e" ∧
    c5t2.actions.map TweenAction.duration = [2000, 0.5] ∧
    c5t2.actions.map TweenAction.easing = ["e", "045"] ∧
    ((0.5 : ℚ) ≠ 2000) := by
  with_unfolding_all decide

/-- C5 (amended): an `add` with a truthy duration (resp. easing) stores it
in `prevDuration` (resp. `prevEasing`); an `add` omitting both appends an
action with the fixed defaults duration `0.5` and easing "045",
irrespective of the remembered values; and `add` returns the tween itself
for chaining. -/
theorem c5_add_remembers_but_fixed_defaults :
    (∀ t p (q : ℚ) e, q ≠ 0 →
       (Tween.add t p (some q) e).1.prevDuration = q) ∧
    (∀ t p d (s : String), s ≠ "" →
       (Tween.add t p d (some s)).1.prevEasing = s) ∧
    (∀ t p, (Tween.add t p none none).1.actions
       = t.actions ++ [⟨p, 0.5, "045"⟩]) ∧
    (∀ t p d e, (Tween.add t p d e).2 = some (Tween.add t p d e).1) := by
  refine ⟨?_, ?_, ?_, ?_⟩
  · intro t p q e hq
    simp [Tween.add, durTruthy, hq]
  · intro t p d s hs
    simp [Tween.add, easTruthy, hs]
  · intro t p
    simp [Tween.add, durTruthy, easTruthy]
  · intro t p d e
    rfl

/-- C5 (witness for the amended theorem) at duration 2000, easing "e". -/
theorem c5_add_remembers_witness :
    (Tween.add (Tween.mk0 0 ctx0) (TweenActionProps.obj [])
       (some 2000) none).1.prevDuration = 2000 ∧
    (Tween.add (Tween.mk0 0 ctx0) (TweenActionProps.obj [])
       none (some "e")).1.prevEasing = "e" :=
  ⟨c5_add_remembers_but_fixed_defaults.1 (Tween.mk0 0 ctx0)
     (TweenActionProps.obj []) 2000 none (by norm_num),
   c5_add_remembers_but_fixed_defaults.2.1 (Tween.mk0 0 ctx0)
     (TweenActionProps.obj []) none "e" (by decide)⟩

/-- C6 (confirmed): after `wait(200)` followed by an `Animate` action, two
`step(100)` calls (cumulative supplied time 200) mutate nothing — the
context is untouched and the tween is still in the wait; on the following
(third) `step(100)` the wait completes and the `Animate` action becomes
current (cursor 1, its clock starts at 0), still without mutating the
context on that call; the first actual mutation happens on the call after
that. -/
theorem c6_wait_gating :
    c6s1.context = ctx0 ∧
    c6s2.context = ctx0 ∧
    c6s2.currentAction = TweenCurrentAction.wait ∧
    c6s3.context = ctx0 ∧
    c6s3.currentAction = TweenCurrentAction.animate ∧
    c6s3.index = 1 ∧
    c6s3.delta = 0 ∧
    c6s4.context "x" = JSVal.num 1 := by
  with_unfolding_all exact ⟨rfl, rfl, rfl, rfl, rfl, rfl, rfl, rfl⟩

/-- C7 (counterexample): `end()` is one of the operations the claim ranges
over, and on a freshly created tween with an empty queue a single `end()`
drives the cursor to 1 while the queue length is 0 — `index` exceeds
`len(actions)`.  (`end()`'s internal `next()` finishes the tween at
`index = len`, and its closing `step(0)` runs `next()` again.) -/
theorem c7_index_bound_counterexample :
    ((Tween.endT linearEase (Tween.mk0 0 ctx0)).1.actions.length : Int) <
      (Tween.endT linearEase (Tween.mk0 0 ctx0)).1.index := by
  with_unfolding_all decide

/-- C9 (counterexample): with the first of two `Animate` actions current
(cursor 0), `forward()` does not leave the cursor in place: completing the
action at progress 1 makes `doAnimate` call `next()` in the same frame, so
after `forward()` the cursor designates the second action (cursor 1). -/
theorem c9_forward_counterexample :
    c9sel.index = 0 ∧
    (Tween.forward linearEase c9sel).index = 1 := by
  with_unfolding_all decide

/-- C10 (confirmed): among the queue-building operations, `delay` and
`repeat` have no `return` statement and so return `undefined`, breaking
any method chain, while `add`, `to`, `wait`, `loop`, `stop`, `play` and
`discard` return the tween (`play`/`discard` are stated at the system
level, where they return the tween's reference). -/
theorem c10_chaining_returns :
    (∀ t p d e, (Tween.add t p d e).2 = some (Tween.add t p d e).1) ∧
    (∀ t p d e, (Tween.to t p d e).2 = some (Tween.to t p d e).1) ∧
    (∀ t (x : ℚ), (Tween.wait t x).2 = some (Tween.wait t x).1) ∧
    (∀ t, (Tween.loop t).2 = some (Tween.loop t).1) ∧
    (∀ t, (Tween.stop t).2 = some (Tween.stop t).1) ∧
    (∀ sys i, (TweenSystem.play sys i).2 = some i) ∧
    (∀ sys i, (TweenSystem.discard sys i).2 = some i) ∧
    (∀ t (x : ℚ), (Tween.delay t x).2 = none) ∧
    (∀ t (n : ℚ), (Tween.repeatT t n).2 = none) :=
  ⟨fun _ _ _ _ => rfl, fun _ _ _ _ => rfl, fun _ _ => rfl, fun _ => rfl,
   fun _ => rfl, fun _ _ => rfl, fun _ _ => rfl, fun _ _ => rfl,
   fun _ _ => rfl⟩

/-- C2 (counterexample): the claim fails on the code.  A one-tween system
whose tween finishes during the very manager `step` call (its queue is
empty and it is not looped) marks the tween inside that call — and the same
call's loop excises it immediately (`this.tweens.splice(i--, 1)`), so the
collection is already empty when `step` returns, not at the start of the
next `step`. -/
theorem c2_deferred_removal_counterexample :
    sysC2.tweens = [0] ∧
    (sysC2.store 0).removeFlag = false ∧
    (TweenManager.step linearEase sysC2 16).tweens = [] ∧
    ((TweenManager.step linearEase sysC2 16).store 0).removeFlag = true := by
  with_unfolding_all decide

/-- C2 (amended): removal is deferred only until the manager-step pass
reaches the entry, never to the next call: after any `TweenManager.step`
over a duplicate-free collection, no member of the resulting collection is
pending removal (entries marked before the pass are skipped and excised;
entries marked during their own step in this pass are excised by the same
pass), and the resulting collection is a subsequence of the previous one. -/
theorem c2_removal_within_pass (E : ℚ → String → ℚ) (sys : TweenSystem)
    (d : ℚ) (h : sys.tweens.Nodup) :
    (∀ j ∈ (TweenManager.step E sys d).tweens,
       ((TweenManager.step E sys d).store j).removeFlag = false) ∧
    (TweenManager.step E sys d).tweens.Sublist sys.tweens := by
  simp only [TweenManager.step]
  refine ⟨?_, ?_⟩
  · intro j hj
    exact TweenManager.stepLoop_no_pending E d sys.tweens _ h j hj
  · exact TweenManager.stepLoop_sublist E d sys.tweens _

/-- C2 (witness): the amended theorem applied to a concrete two-tween
system (a live looped tween and a pre-marked one). -/
theorem c2_removal_within_pass_witness :
    (∀ j ∈ (TweenManager.step linearEase sysW 16).tweens,
       ((TweenManager.step linearEase sysW 16).store j).removeFlag = false) ∧
    (TweenManager.step linearEase sysW 16).tweens.Sublist sysW.tweens :=
  c2_removal_within_pass linearEase sysW 16 (by decide)

/-- C7 (amended): the cursor bound `-1 ≤ index ≤ len(actions)` is an
invariant of tween construction and of the operations `add`, `loop`,
`play`, `next` and `step`, provided `play`/`next`/`step` are applied to a
tween that has not (yet) finished.  (As the counterexample shows, the bound
is not preserved by `end()` on a queue without an `Animate` action, nor by
advancing a tween after it finished at `index = len`.) -/
theorem c7_index_bound_invariant :
    (∀ cid ctx, TweenInv (Tween.mk0 cid ctx)) ∧
    (∀ t, TweenInv t → -1 ≤ t.index ∧ t.index ≤ (t.actions.length : Int)) ∧
    (∀ t p d e, TweenInv t → TweenInv (Tween.add t p d e).1) ∧
    (∀ t, TweenInv t → TweenInv (Tween.loop t).1) ∧
    (∀ t, TweenInv t → t.finished = false → TweenInv (Tween.play t)) ∧
    (∀ t, TweenInv t → t.finished = false → TweenInv (Tween.next t)) ∧
    (∀ E t d, TweenInv t → t.finished = false → TweenInv (Tween.step E t d)) :=
  ⟨Tween.mk0_inv,
   fun _ h => ⟨h.1, h.2.1⟩,
   fun t p d e h => Tween.add_inv t p d e h,
   fun t h => Tween.loop_inv t h,
   fun t h hf => Tween.play_inv t h hf,
   fun t h hf => Tween.next_inv t h hf,
   fun E t d h hf => Tween.step_inv E t d h hf⟩

/-- C7 (witness): the invariant clause for `step` applied to the concrete
one-action tween `c1t`. -/
theorem c7_index_bound_invariant_witness :
    TweenInv (Tween.step linearEase c1t 500) :=
  c7_index_bound_invariant.2.2.2.2.2.2 linearEase c1t 500
    (by with_unfolding_all decide) (by with_unfolding_all decide)

/-- C8 (confirmed): a tween appears at most once in the manager's
collection.  `add` of an already-present tween leaves the collection
unchanged and only clears that tween's `_remove` flag, and the
duplicate-free property (together with the bound that every collected
reference was handed out by the factory) is preserved by `add`, `remove`,
`discard`, the factory, `step`, `play` and the tween-level `discard`. -/
theorem c8_manager_at_most_once :
    (∀ sys i, i ∈ sys.tweens →
       (TweenManager.add sys i).tweens = sys.tweens ∧
       (TweenManager.add sys i).store i
         = { sys.store i with removeFlag := false } ∧
       ∀ j, j ≠ i → (TweenManager.add sys i).store j = sys.store j) ∧
    (∀ sys i, SysInv sys → i < sys.nextId → SysInv (TweenManager.add sys i)) ∧
    (∀ sys i, SysInv sys → SysInv (TweenManager.remove sys i)) ∧
    (∀ sys cid safe, SysInv sys → SysInv (TweenManager.discard sys cid safe)) ∧
    (∀ sys cid ctx, SysInv sys → SysInv (TweenManager.tween sys cid ctx).1) ∧
    (∀ E sys d, SysInv sys → SysInv (TweenManager.step E sys d)) ∧
    (∀ sys i, SysInv sys → i < sys.nextId → SysInv (TweenSystem.play sys i).1) ∧
    (∀ sys i, SysInv sys → SysInv (TweenSystem.discard sys i).1) :=
  ⟨TweenManager.add_mem_spec,
   fun sys i h hi => sysInv_add sys i h hi,
   sysInv_remove,
   fun sys cid safe h => sysInv_discard sys cid safe h,
   fun sys cid ctx h => sysInv_tween sys cid ctx h,
   fun E sys d h => sysInv_step E sys d h,
   fun sys i h hi => sysInv_play sys i h hi,
   fun sys i h => sysInv_discard_method sys i h⟩

/-- C8 (witness): idempotent re-`add` of the already-present tween 0 of the
concrete system `sysW`. -/
theorem c8_manager_at_most_once_witness :
    (TweenManager.add sysW 0).tweens = sysW.tweens ∧
    (TweenManager.add sysW 0).store 0
      = { sysW.store 0 with removeFlag := false } ∧
    ∀ j, j ≠ 0 → (TweenManager.add sysW 0).store j = sysW.store j :=
  c8_manager_at_most_once.1 sysW 0 (by decide)

/-- C9 (amended): with an `Animate` action current (and a nonzero
duration, the only kind `add` can produce), `forward()` does force the
action to its completed state: `progress` becomes 1 and, for an easing
environment that maps progress 1 to factor 1 (as easing curves do — the
linear environment in particular), the final property values are written
to the context — the full write-back at factor 1, under which a numeric
entry receives `before + change` (the decomposition target), as the last
conjunct states.  But `forward()` then advances the queue: `doAnimate` at
progress 1 calls `next()` in the same frame, so the cursor moves past the
action (by exactly one for a non-looped tween, triggering finish handling
when it was the last action). -/
theorem c9_forward_completes_then_advances (E : ℚ → String → ℚ) (t : Tween)
    (a : TweenAction) (hc : t.current = some a)
    (hca : t.currentAction = TweenCurrentAction.animate)
    (hd : t.duration ≠ 0) (hl : t.looped = false)
    (hE : E 1 t.easing = 1) :
    (Tween.forward E t).progress = 1 ∧
    (Tween.forward E t).context
      = applyKeys 1 t.context t.keys t.before t.change t.types ∧
    (Tween.forward E t).index = t.index + 1 ∧
    (∀ (b c : ℚ), applyEntry 1 (BVal.v (JSVal.num b)) (CVal.num c) 0
       = some (JSVal.num (b + c))) := by
  simp only [Tween.forward, Tween.step, hc, hca]
  rw [if_neg (by simp)]
  simp only [Tween.doAnimate]
  rw [add_zero, div_self hd, min_self, if_pos le_rfl]
  refine ⟨?_, ?_, ?_, ?_⟩
  · rw [Tween.next_progress]
  · rw [Tween.next_context]
    show applyKeys (E 1 t.easing) t.context t.keys t.before t.change t.types
        = applyKeys 1 t.context t.keys t.before t.change t.types
    rw [hE]
  · rw [Tween.next_index_nonloop]
    exact hl
  · intro b c
    simp [applyEntry]

/-- C9 (witness): the amended theorem applied to the concrete two-action
tween with its first action current, under the linear easing environment;
the extra conjunct evaluates the written-back final value concretely
(`x = 10`, the first action's target). -/
theorem c9_forward_completes_then_advances_witness :
    ((Tween.forward linearEase c9sel).progress = 1 ∧
     (Tween.forward linearEase c9sel).context
       = applyKeys 1 c9sel.context c9sel.keys c9sel.before c9sel.change
           c9sel.types ∧
     (Tween.forward linearEase c9sel).index = c9sel.index + 1 ∧
     (∀ (b c : ℚ), applyEntry 1 (BVal.v (JSVal.num b)) (CVal.num c) 0
        = some (JSVal.num (b + c)))) ∧
    (Tween.forward linearEase c9sel).context "x" = JSVal.num 10 :=
  ⟨c9_forward_completes_then_advances linearEase c9sel
     ⟨TweenActionProps.obj [("x", JSVal.num 10)], 1000, "lin"⟩
     (by with_unfolding_all decide) (by with_unfolding_all decide)
     (by with_unfolding_all decide) (by with_unfolding_all decide) rfl,
   by with_unfolding_all decide⟩
